import Mathlib

/-!
Verification of the kitchen-hand-guide authentication, middleware and upload
validation layer against its specification.

The Rust sources embedded here are src/auth.rs, src/middleware.rs,
src/handlers.rs (login and the create_product image branch), src/utils.rs
(is_valid_image_extension) and src/main.rs (the set of environment keys read
at startup).  Pure functions become Lean functions; the ambient process
environment becomes an explicit association list; a Rust panic (an .expect on
a missing environment variable) becomes the dedicated PResult.panic value;
fallible code returns Except or Option.

Two external crates whose code is not part of this repository are modelled
from the specification's words, as marked on their definitions:
the jsonwebtoken encode/decode pair (spec section 4.2) and the bcrypt
hash/verify pair (spec section 4.1).  Tokens are modelled as genuine strings:
encoding serialises the claims into hex characters with separators and
appends a secret-dependent signature, and decoding parses an arbitrary
string, so that malformed-structure, bad-signature and expired cases are all
distinguishable on plain string inputs.
-/

/-- Result of a Rust computation that may panic (process abort), as produced
by .expect on a missing environment variable. -/
inductive PResult (α : Type) where
  | panic (msg : String)
  | ret (v : α)
deriving DecidableEq, Repr

/-- The ambient process environment: an association list of variables, looked
up by std::env::var. -/
abbrev Env := List (String × String)

/-- std::env::var: the first binding of the key, if any. -/
def envVar (env : Env) (key : String) : Option String :=
  match env with
  | [] => none
  | p :: rest => if p.1 = key then some p.2 else envVar rest key

/-- Hex digit character for a value below 16 (0-9 then a-f), used by the
token serialisation model. -/
def hexDigit (n : Nat) : Char :=
  if n < 10 then Char.ofNat (48 + n) else Char.ofNat (87 + n)

/-- Value of a hex digit character (0-9, a-f), none for any other char. -/
def hexValC (c : Char) : Option Nat :=
  if 48 ≤ c.toNat ∧ c.toNat ≤ 57 then some (c.toNat - 48)
  else if 97 ≤ c.toNat ∧ c.toNat ≤ 102 then some (c.toNat - 87)
  else none

/-- A character is a (lowercase) hex digit. -/
def isHexCh (c : Char) : Bool :=
  (hexValC c).isSome

/-- Fixed-width six-hex-digit encoding of one character of a claims field
(every Unicode scalar value fits in six hex digits). -/
def encChar (c : Char) : List Char :=
  [hexDigit (c.toNat / 1048576 % 16), hexDigit (c.toNat / 65536 % 16),
   hexDigit (c.toNat / 4096 % 16), hexDigit (c.toNat / 256 % 16),
   hexDigit (c.toNat / 16 % 16), hexDigit (c.toNat % 16)]

/-- Hex serialisation of a string of a claims field, six digits per
character. -/
def encStr : List Char → List Char
  | [] => []
  | c :: cs => encChar c ++ encStr cs

/-- Decode six hex digits into one numeric value. -/
def decHex6 (c1 c2 c3 c4 c5 c6 : Char) : Option Nat :=
  match hexValC c1, hexValC c2, hexValC c3, hexValC c4, hexValC c5, hexValC c6 with
  | some d1, some d2, some d3, some d4, some d5, some d6 =>
      some (((((d1 * 16 + d2) * 16 + d3) * 16 + d4) * 16 + d5) * 16 + d6)
  | _, _, _, _, _, _ => none

/-- Inverse of encStr: groups of six hex digits back to characters; none on
any string that is not such a serialisation. -/
def decStr : List Char → Option (List Char)
  | [] => some []
  | c1 :: c2 :: c3 :: c4 :: c5 :: c6 :: rest =>
      match decHex6 c1 c2 c3 c4 c5 c6, decStr rest with
      | some n, some s => some (Char.ofNat n :: s)
      | _, _ => none
  | _ => none

/-- Little-endian hex digit list of a natural number, structurally recursive
over a fuel bound (the number itself bounds its digit count). -/
def natToHexRevF : Nat → Nat → List Char
  | 0, _ => []
  | f + 1, n => if n = 0 then [] else hexDigit (n % 16) :: natToHexRevF f (n / 16)

/-- Little-endian hex digit list of a natural number (empty for zero), used
for the numeric claims fields. -/
def natToHexRev (n : Nat) : List Char :=
  natToHexRevF n n

/-- Inverse of natToHexRev. -/
def natFromHexRev : List Char → Option Nat
  | [] => some 0
  | c :: cs =>
      match hexValC c, natFromHexRev cs with
      | some d, some r => some (d + 16 * r)
      | _, _ => none

/-- Split a character list at every occurrence of a separator (the groups
between separators, in order; no group contains the separator). -/
def splitOnCh (sep : Char) : List Char → List (List Char)
  | [] => [[]]
  | c :: cs =>
      let r := splitOnCh sep cs
      if c = sep then [] :: r
      else
        match r with
        | [] => [[c]]
        | g :: gs => (c :: g) :: gs

theorem natToHexRevF_zero (f : Nat) : natToHexRevF f 0 = [] := by
  cases f <;> rfl

theorem natToHexRevF_congr : ∀ f1 f2 n, n ≤ f1 → n ≤ f2 →
    natToHexRevF f1 n = natToHexRevF f2 n := by
  intro f1
  induction f1 with
  | zero =>
      intro f2 n h1 h2
      have hn : n = 0 := Nat.le_zero.mp h1
      subst hn
      rw [natToHexRevF_zero, natToHexRevF_zero]
  | succ f ih =>
      intro f2 n h1 h2
      by_cases hn : n = 0
      · subst hn; rw [natToHexRevF_zero, natToHexRevF_zero]
      · cases f2 with
        | zero => omega
        | succ f2a =>
            simp only [natToHexRevF, hn, if_false]
            congr 1
            exact ih f2a (n / 16) (by omega) (by omega)

theorem natToHexRev_unfold (n : Nat) :
    natToHexRev n = if n = 0 then [] else hexDigit (n % 16) :: natToHexRev (n / 16) := by
  by_cases hn : n = 0
  · subst hn; simp [natToHexRev, natToHexRevF_zero]
  · obtain ⟨m, rfl⟩ : ∃ m, n = m + 1 := ⟨n - 1, by omega⟩
    simp only [natToHexRev, natToHexRevF, hn, if_false]
    congr 1
    exact natToHexRevF_congr m ((m + 1) / 16) ((m + 1) / 16) (by omega) (Nat.le_refl _)

theorem hexValC_hexDigit (m : Nat) (h : m < 16) : hexValC (hexDigit m) = some m := by
  interval_cases m <;> decide

theorem isHexCh_hexDigit (m : Nat) (h : m < 16) : isHexCh (hexDigit m) = true := by
  simp [isHexCh, hexValC_hexDigit m h]

theorem isHexCh_ne_dot {c : Char} (h : isHexCh c = true) : c ≠ '.' := by
  intro he
  subst he
  simp [isHexCh, hexValC] at h

theorem isHexCh_ne_dash {c : Char} (h : isHexCh c = true) : c ≠ '-' := by
  intro he
  subst he
  simp [isHexCh, hexValC] at h

theorem char_toNat_lt (c : Char) : c.toNat < 16777216 := by
  have h : c.val.toNat < 55296 ∨ 57343 < c.val.toNat ∧ c.val.toNat < 1114112 :=
    c.valid
  have he : c.toNat = c.val.toNat := rfl
  omega

theorem encStr_hex (s : List Char) : ∀ c ∈ encStr s, isHexCh c = true := by
  induction s with
  | nil => intro c hc; simp [encStr] at hc
  | cons a as ih =>
      intro c hc
      simp only [encStr, encChar, List.mem_append, List.mem_cons] at hc
      rcases hc with h | h
      · simp only [List.mem_cons, List.not_mem_nil, or_false] at h
        rcases h with h | h | h | h | h | h <;>
          (subst h; exact isHexCh_hexDigit _ (Nat.mod_lt _ (by decide)))
      · exact ih c h

theorem natToHexRev_hex (n : Nat) : ∀ c ∈ natToHexRev n, isHexCh c = true := by
  induction n using Nat.strong_induction_on with
  | _ n ih =>
      intro c hc
      by_cases h : n = 0
      · subst h; rw [natToHexRev_unfold] at hc; simp at hc
      · rw [natToHexRev_unfold] at hc
        simp only [h, if_false, List.mem_cons] at hc
        rcases hc with h1 | h1
        · subst h1; exact isHexCh_hexDigit _ (Nat.mod_lt _ (by decide))
        · exact ih (n / 16) (Nat.div_lt_self (Nat.pos_of_ne_zero h) (by decide)) c h1

theorem decStr_encStr (s : List Char) : decStr (encStr s) = some s := by
  induction s with
  | nil => rfl
  | cons c cs ih =>
      have hlt : c.toNat < 16777216 := char_toNat_lt c
      have h1 : c.toNat / 1048576 % 16 < 16 := Nat.mod_lt _ (by decide)
      have h2 : c.toNat / 65536 % 16 < 16 := Nat.mod_lt _ (by decide)
      have h3 : c.toNat / 4096 % 16 < 16 := Nat.mod_lt _ (by decide)
      have h4 : c.toNat / 256 % 16 < 16 := Nat.mod_lt _ (by decide)
      have h5 : c.toNat / 16 % 16 < 16 := Nat.mod_lt _ (by decide)
      have h6 : c.toNat % 16 < 16 := Nat.mod_lt _ (by decide)
      have hval : ((((c.toNat / 1048576 % 16 * 16 + c.toNat / 65536 % 16) * 16
          + c.toNat / 4096 % 16) * 16 + c.toNat / 256 % 16) * 16
          + c.toNat / 16 % 16) * 16 + c.toNat % 16 = c.toNat := by omega
      simp only [encStr, encChar, List.cons_append, List.nil_append, List.append_eq,
        decStr, decHex6,
        hexValC_hexDigit _ h1, hexValC_hexDigit _ h2, hexValC_hexDigit _ h3,
        hexValC_hexDigit _ h4, hexValC_hexDigit _ h5, hexValC_hexDigit _ h6, ih, hval,
        Char.ofNat_toNat]

theorem natFromHexRev_natToHexRev (n : Nat) : natFromHexRev (natToHexRev n) = some n := by
  induction n using Nat.strong_induction_on with
  | _ n ih =>
      by_cases h : n = 0
      · subst h; rw [natToHexRev_unfold]; rfl
      · rw [natToHexRev_unfold]
        simp only [h, if_false, natFromHexRev,
          hexValC_hexDigit _ (Nat.mod_lt _ (by decide)),
          ih (n / 16) (Nat.div_lt_self (Nat.pos_of_ne_zero h) (by decide))]
        congr 1
        omega

theorem splitOnCh_no_sep {sep : Char} {xs : List Char} (h : sep ∉ xs) :
    splitOnCh sep xs = [xs] := by
  induction xs with
  | nil => rfl
  | cons c cs ih =>
      simp only [List.mem_cons, not_or] at h
      rw [splitOnCh]
      simp only [ih h.2]
      have : ¬ c = sep := fun he => h.1 he.symm
      simp [this]

theorem splitOnCh_append {sep : Char} {xs ys : List Char} (h : sep ∉ xs) :
    splitOnCh sep (xs ++ sep :: ys) = xs :: splitOnCh sep ys := by
  induction xs with
  | nil =>
      simp only [List.nil_append]
      rw [splitOnCh]
      simp
  | cons c cs ih =>
      simp only [List.mem_cons, not_or] at h
      simp only [List.cons_append]
      rw [splitOnCh]
      simp only [ih h.2]
      have : ¬ c = sep := fun he => h.1 he.symm
      simp [this]

/-- JWT claims structure of src/auth.rs: subject (user id rendered as a
string), username, expiration and issued-at in seconds since epoch (usize). -/
structure Claims where
  sub : String
  username : String
  exp : Nat
  iat : Nat
deriving DecidableEq, Repr

/-- Taxonomy of token validation failures named by the specification
(section 4.2): ExpiredToken, MalformedToken, UnknownError. -/
inductive JwtError where
  | ExpiredToken
  | MalformedToken
  | UnknownError
deriving DecidableEq, Repr

/-- Serialised claims payload: the four fields, hex-encoded, joined by
dashes.  Every payload character is a hex digit or a dash. -/
def encodePayload (c : Claims) : List Char :=
  encStr c.sub.data ++ '-' :: (encStr c.username.data ++ '-' ::
    (natToHexRev c.exp ++ '-' :: natToHexRev c.iat))

/-- Modelled from the spec (section 4.2): the signature the jsonwebtoken
crate (not part of this repository's sources) appends, a deterministic
function of the server-held symmetric secret and of the payload.  Only hex
characters, so it never contains the dot separator. -/
def jwtSig (secret : String) (payload : List Char) : List Char :=
  encStr (secret.data ++ payload)

/-- Modelled from the spec (section 4.2): jsonwebtoken encode, a signed,
compact representation embedding the claims, as a plain string:
payload, dot, signature. -/
def jwtEncode (secret : String) (c : Claims) : String :=
  String.mk (encodePayload c ++ '.' :: jwtSig secret (encodePayload c))

/-- Parse a payload back into claims; none when the shape is not four
dash-separated well-formed fields. -/
def decodePayload (payload : List Char) : Option Claims :=
  match splitOnCh '-' payload with
  | [a, b, e, i] =>
      match decStr a, decStr b, natFromHexRev e, natFromHexRev i with
      | some sub, some un, some exp, some iat =>
          some ⟨String.mk sub, String.mk un, exp, iat⟩
      | _, _, _, _ => none
  | _ => none

/-- Modelled from the spec (section 4.2): jsonwebtoken decode with default
validation, applied to an arbitrary token string.  Structure or signature
invalid gives MalformedToken; otherwise, current time at or past the
embedded expiry gives ExpiredToken; otherwise the embedded claims are
returned verbatim. -/
def jwtDecode (secret : String) (now : Int) (token : String) : Except JwtError Claims :=
  match splitOnCh '.' token.data with
  | [payload, sig] =>
      if sig = jwtSig secret payload then
        match decodePayload payload with
        | some c => if (c.exp : Int) ≤ now then .error .ExpiredToken else .ok c
        | none => .error .MalformedToken
      else .error .MalformedToken
  | _ => .error .MalformedToken

/-- The claims a token string structurally embeds under a given secret
(signature must verify); none when structure or signature is invalid. -/
def embeddedClaims (secret : String) (token : String) : Option Claims :=
  match splitOnCh '.' token.data with
  | [payload, sig] =>
      if sig = jwtSig secret payload then decodePayload payload else none
  | _ => none

/-- Model of a Rust Uuid (the uuid crate is not part of this repository's
sources): the canonical hyphenated textual form. -/
structure Uuid where
  str : String
deriving DecidableEq, Repr

/-- Rendering of a Uuid, as Uuid::to_string. -/
def Uuid.render (u : Uuid) : String :=
  u.str

/-- Uuid::parse_str modelled on the canonical hyphenated form: five
dash-separated groups of 8, 4, 4, 4 and 12 hex digits. -/
def uuidParse (s : String) : Option Uuid :=
  match splitOnCh '-' s.data with
  | [a, b, c, d, e] =>
      if a.length = 8 ∧ b.length = 4 ∧ c.length = 4 ∧ d.length = 4 ∧ e.length = 12
          ∧ (a ++ b ++ c ++ d ++ e).all isHexCh then
        some ⟨s⟩
      else none
  | _ => none

/-- Message of the .expect that aborts when JWT_SECRET is absent
(src/auth.rs lines 49 and 82). -/
def jwtSecretPanicMsg : String :=
  "JWT_SECRET must be set in .env file"

/-- Rust i64 parsing of a decimal string (str::parse::<i64>): optional sign,
one or more ASCII digits, value within the i64 range. -/
def parseI64 (s : String) : Option Int :=
  let core : List Char → Int → Option Int := fun ds sign =>
    if ds.isEmpty || !(ds.all Char.isDigit) then none
    else
      let n : Nat := ds.foldl (fun a c => a * 10 + (c.toNat - 48)) 0
      let v : Int := sign * (n : Int)
      if -(2 ^ 63) ≤ v ∧ v < 2 ^ 63 then some v else none
  match s.data with
  | '+' :: ds => core ds 1
  | '-' :: ds => core ds (-1)
  | ds => core ds 1

/-- Expiration hours as src/auth.rs lines 50-53 computes them: the
JWT_EXPIRATION_HOURS variable, defaulting to the string 24 when absent, then
parse::<i64>() with unwrap_or(24). -/
def expirationHours (env : Env) : Int :=
  let s := (envVar env "JWT_EXPIRATION_HOURS").getD "24"
  (parseI64 s).getD 24

/-- Two's-complement cast of an i64 timestamp to usize (as usize in
src/auth.rs lines 56-58). -/
def usizeCast (x : Int) : Nat :=
  (x % (2 ^ 64 : Int)).toNat

/-- generate_token of src/auth.rs lines 48-72: reads JWT_SECRET from the
ambient environment (aborting when absent), reads the expiration hours,
builds claims with exp = now + hours and iat = now (both cast to usize), and
encodes them with the secret.  now is the value of Utc::now().timestamp(). -/
def generate_token (env : Env) (now : Int) (user_id : Uuid) (username : String) :
    PResult String :=
  match envVar env "JWT_SECRET" with
  | none => .panic jwtSecretPanicMsg
  | some jwt_secret =>
      let exp := usizeCast (now + expirationHours env * 3600)
      let iat := usizeCast now
      .ret (jwtEncode jwt_secret ⟨user_id.render, username, exp, iat⟩)

/-- validate_token of src/auth.rs lines 81-91: reads JWT_SECRET from the
ambient environment (aborting when absent) and decodes the token with it. -/
def validate_token (env : Env) (now : Int) (token : String) :
    PResult (Except JwtError Claims) :=
  match envVar env "JWT_SECRET" with
  | none => .panic jwtSecretPanicMsg
  | some jwt_secret => .ret (jwtDecode jwt_secret now token)

theorem encodePayload_ne_dot (c : Claims) : '.' ∉ encodePayload c := by
  intro h
  simp only [encodePayload, List.mem_append, List.mem_cons] at h
  rcases h with h | h | h
  · exact isHexCh_ne_dot (encStr_hex _ _ h) rfl
  · exact absurd h (by decide)
  · rcases h with h | h | h
    · exact isHexCh_ne_dot (encStr_hex _ _ h) rfl
    · exact absurd h (by decide)
    · rcases h with h | h | h
      · exact isHexCh_ne_dot (natToHexRev_hex _ _ h) rfl
      · exact absurd h (by decide)
      · exact isHexCh_ne_dot (natToHexRev_hex _ _ h) rfl

theorem jwtSig_ne_dot (secret : String) (p : List Char) : '.' ∉ jwtSig secret p := by
  intro h
  exact isHexCh_ne_dot (encStr_hex _ _ h) rfl

theorem decodePayload_encodePayload (c : Claims) :
    decodePayload (encodePayload c) = some c := by
  have ha : '-' ∉ encStr c.sub.data := fun h => isHexCh_ne_dash (encStr_hex _ _ h) rfl
  have hb : '-' ∉ encStr c.username.data := fun h => isHexCh_ne_dash (encStr_hex _ _ h) rfl
  have he : '-' ∉ natToHexRev c.exp := fun h => isHexCh_ne_dash (natToHexRev_hex _ _ h) rfl
  have hi : '-' ∉ natToHexRev c.iat := fun h => isHexCh_ne_dash (natToHexRev_hex _ _ h) rfl
  simp only [decodePayload, encodePayload, splitOnCh_append ha, splitOnCh_append hb,
    splitOnCh_append he, splitOnCh_no_sep hi, decStr_encStr, natFromHexRev_natToHexRev]

/-- Round trip of the token codec model: decoding an issued token with the
same secret yields the embedded claims, or ExpiredToken once the clock has
reached the embedded expiry. -/
theorem jwtDecode_jwtEncode (secret : String) (now : Int) (c : Claims) :
    jwtDecode secret now (jwtEncode secret c) =
      if (c.exp : Int) ≤ now then .error .ExpiredToken else .ok c := by
  simp only [jwtDecode, jwtEncode, splitOnCh_append (encodePayload_ne_dot c),
    splitOnCh_no_sep (jwtSig_ne_dot secret (encodePayload c)),
    decodePayload_encodePayload]
  simp

/-- Same round trip phrased for embeddedClaims. -/
theorem embeddedClaims_jwtEncode (secret : String) (c : Claims) :
    embeddedClaims secret (jwtEncode secret c) = some c := by
  simp only [embeddedClaims, jwtEncode, splitOnCh_append (encodePayload_ne_dot c),
    splitOnCh_no_sep (jwtSig_ne_dot secret (encodePayload c)),
    decodePayload_encodePayload]
  simp

/-- Caller identity exposed to handlers (src/middleware.rs lines 102-106):
user id and username reconstructed from validated claims. -/
structure AuthenticatedUser where
  user_id : Uuid
  username : String
deriving DecidableEq, Repr

/-- A request as the authentication layer sees it: the Authorization header
value (when present and readable as a string), the cookie jar, and the
request-scoped extensions slot the middleware fills with decoded claims. -/
structure SRequest where
  authorization : Option String
  cookies : List (String × String)
  claimsExt : Option Claims
deriving DecidableEq, Repr

/-- First binding of a name in a cookie jar. -/
def cookieLookup : List (String × String) → String → Option String
  | [], _ => none
  | p :: rest, name => if p.1 = name then some p.2 else cookieLookup rest name

/-- HttpRequest::cookie: the first cookie of the given name. -/
def reqCookie (req : SRequest) (name : String) : Option String :=
  cookieLookup req.cookies name

/-- An HTTP response: status code and body. -/
structure HttpResp where
  status : Nat
  body : String
deriving DecidableEq, Repr

/-- Modelled from the spec (section 4.3, failure rendering): the body of the
rendered 401.html template, which is not part of src/.  The claims about the
gate depend only on the 401 status of this response. -/
def error401Body : String :=
  "401 Unauthorized"

/-- render_401_error of src/middleware.rs lines 183-197: a 401 response
carrying the rendered template (or the plain-text fallback; either way the
status is 401). -/
def render_401_error : HttpResp :=
  ⟨401, error401Body⟩

/-- Token extraction of src/middleware.rs lines 59-74: the Authorization
header value when it has the literal prefix of Bearer followed by one space
(the seven characters are stripped), else the auth_token cookie. -/
def extractToken (req : SRequest) : Option String :=
  let fromHeader : Option String :=
    match req.authorization with
    | some h =>
        if "Bearer ".data.isPrefixOf h.data then some (String.mk (h.data.drop 7))
        else none
    | none => none
  match fromHeader with
  | some t => some t
  | none => reqCookie req "auth_token"

/-- AuthenticationMiddleware::call of src/middleware.rs lines 55-97: extract
a token, 401 when absent, validate it, 401 when invalid, otherwise store the
claims in the request extensions and invoke the wrapped service, propagating
its response unchanged. -/
def authMiddlewareCall (env : Env) (now : Int) (service : SRequest → HttpResp)
    (req : SRequest) : PResult (Except HttpResp HttpResp) :=
  match extractToken req with
  | some token =>
      match validate_token env now token with
      | .panic m => .panic m
      | .ret (.ok claims) => .ret (.ok (service { req with claimsExt := some claims }))
      | .ret (.error _) => .ret (.error render_401_error)
  | none => .ret (.error render_401_error)

/-- Failure of a request-scoped extraction, rendered by actix as a 401
response with the given message. -/
inductive ExtractErr where
  | unauthorized (msg : String)
deriving DecidableEq, Repr

/-- AuthenticatedUser::from_request of src/middleware.rs lines 108-135:
claims must already be in the request extensions and their subject must
parse as a UUID; otherwise a 401 error. -/
def authenticatedUserFromRequest (req : SRequest) : Except ExtractErr AuthenticatedUser :=
  match req.claimsExt with
  | some claims =>
      match uuidParse claims.sub with
      | some user_id => .ok ⟨user_id, claims.username⟩
      | none => .error (.unauthorized "Invalid user ID in token")
  | none => .error (.unauthorized "Authentication required")

/-- The extensions-derived identity of OptionalAuth::from_request
(src/middleware.rs lines 153-160): claims from the extensions whose subject
parses, otherwise nothing. -/
def extIdentity (req : SRequest) : Option AuthenticatedUser :=
  match req.claimsExt with
  | some claims =>
      match uuidParse claims.sub with
      | some user_id => some ⟨user_id, claims.username⟩
      | none => none
  | none => none

/-- OptionalAuth::from_request of src/middleware.rs lines 144-180: the
extensions-derived identity when present, else a fresh validation of the
auth_token cookie with every failure swallowed into no identity; the
extractor itself always returns Ok. -/
def optionalAuthFromRequest (env : Env) (now : Int) (req : SRequest) :
    PResult (Option AuthenticatedUser) :=
  match extIdentity req with
  | some u => .ret (some u)
  | none =>
      match reqCookie req "auth_token" with
      | none => .ret none
      | some t =>
          match validate_token env now t with
          | .panic m => .panic m
          | .ret (.error _) => .ret none
          | .ret (.ok claims) =>
              match uuidParse claims.sub with
              | some user_id => .ret (some ⟨user_id, claims.username⟩)
              | none => .ret none

/-- The environment keys src/main.rs reads during startup (lines 13-54):
database url, host, port and upload directory.  JWT_SECRET is not among
them, so startup performs no check of the signing secret. -/
def mainStartupEnvReads : List String :=
  ["DATABASE_URL", "HOST", "PORT", "UPLOAD_DIR"]

/-- Modelled from the spec (sections 4.1 and 8): the bcrypt crate is not
part of this repository's sources.  A hash records the salt drawn at hashing
time and is matched by exactly the password it was derived from: a
deterministic-but-salted one-way transform whose verification recomputes and
compares. -/
structure BcryptHash where
  salt : Nat
  matchesPassword : String
deriving DecidableEq, Repr

/-- hash_password of src/auth.rs lines 24-26 (bcrypt hash with DEFAULT_COST);
the salt argument stands for the RNG draw inside the crate. -/
def hash_password (salt : Nat) (password : String) : Except String BcryptHash :=
  .ok ⟨salt, password⟩

/-- verify_password of src/auth.rs lines 36-38 (bcrypt verify). -/
def verify_password (password : String) (hash : BcryptHash) : Except String Bool :=
  .ok (hash.matchesPassword == password)

/-- User record of src/models.rs lines 312-320 (fields the login handler
touches). -/
structure User where
  id : Uuid
  username : String
  password_hash : BcryptHash
  is_active : Bool
deriving DecidableEq, Repr

/-- LoginForm of src/models.rs lines 324-327. -/
structure LoginForm where
  username : String
  password : String
deriving DecidableEq, Repr

/-- Outcome of the login handler: a redirect that sets the auth_token
cookie, a 401 page, or a 500. -/
inductive LoginOutcome where
  | seeOther (location : String) (cookieToken : String)
  | unauthorized (body : String)
  | internalError (msg : String)
deriving DecidableEq, Repr

/-- HTTP status of a login outcome. -/
def loginStatus : LoginOutcome → Nat
  | .seeOther _ _ => 303
  | .unauthorized _ => 401
  | .internalError _ => 500

/-- Modelled from the spec (section 7): the login.html template is not part
of src/; its rendering is some fixed function of the error message passed to
it.  The user-enumeration claim depends only on both failure paths rendering
the same message. -/
def renderLoginPage (error : String) : String :=
  "login-page-error:" ++ error

/-- login of src/handlers.rs lines 1142-1210: look the user up by username,
answer 401 with the generic message for an unknown user or for a failing
password verification, 500 for database or verification errors, and on
success issue a token and redirect home setting the auth_token cookie.
The database lookup result is passed in explicitly. -/
def login (env : Env) (now : Int) (lookup : Except String (Option User))
    (form : LoginForm) : PResult LoginOutcome :=
  match lookup with
  | .error _ => .ret (.internalError "Database error")
  | .ok none => .ret (.unauthorized (renderLoginPage "Invalid username or password"))
  | .ok (some user) =>
      match verify_password form.password user.password_hash with
      | .ok true =>
          match generate_token env now user.id user.username with
          | .panic m => .panic m
          | .ret token => .ret (.seeOther "/" token)
      | .ok false => .ret (.unauthorized (renderLoginPage "Invalid username or password"))
      | .error _ => .ret (.internalError "Authentication error")

/-- The final path component (after the last slash), as Path::new(..)
resolves the file name of a relative path. -/
def fileNamePart (s : String) : List Char :=
  (splitOnCh '/' s.data).getLastD []

/-- Path::extension of the Rust standard library on a file name: the portion
after the final dot, none when there is no dot, when the name begins with
its only dot, or for the special names of one or two dots. -/
def extOf (filename : String) : Option String :=
  let f := fileNamePart filename
  if f = ['.'] ∨ f = ['.', '.'] then none
  else
    match splitOnCh '.' f with
    | [] => none
    | [_] => none
    | parts =>
        if parts.headD [] = [] ∧ parts.length = 2 then none
        else some (String.mk (parts.getLastD []))

/-- ASCII lowercasing of str::to_lowercase (the extensions compared against
are all ASCII). -/
def asciiLower (s : String) : String :=
  String.mk (s.data.map (fun c =>
    if 65 ≤ c.toNat ∧ c.toNat ≤ 90 then Char.ofNat (c.toNat + 32) else c))

/-- is_valid_image_extension of src/utils.rs lines 63-74: the extension,
lowercased, must be one of jpg, jpeg, png, webp; a file with no extension is
rejected. -/
def is_valid_image_extension (filename : String) : Bool :=
  match extOf filename with
  | some ext => ["jpg", "jpeg", "png", "webp"].contains (asciiLower ext)
  | none => false

/-- Control flow of the image branch of create_product (src/handlers.rs
lines 150-233): no picture field, a picture without a filename (bad
request), a filename failing the extension check (400 page, storage adapter
never invoked), or a filename passing it, after which the adapter (S3 or
local) is invoked. -/
inductive ImageStep where
  | noUpload
  | badFileName
  | rejectedInvalidType
  | adapterInvoked (filename : String)
deriving DecidableEq, Repr

/-- The decision create_product takes for its optional picture before any
storage call: the extension check gates the adapter. -/
def createProductImageStep (picture : Option (Option String)) : ImageStep :=
  match picture with
  | none => .noUpload
  | some none => .badFileName
  | some (some filename) =>
      if is_valid_image_extension filename then .adapterInvoked filename
      else .rejectedInvalidType

theorem usizeCast_int_eq {x : Int} (h0 : 0 ≤ x) (h1 : x < 2 ^ 64) :
    (usizeCast x : Int) = x := by
  unfold usizeCast
  omega

theorem validate_token_of_secret {env : Env} {secret : String}
    (hs : envVar env "JWT_SECRET" = some secret) (now : Int) (token : String) :
    validate_token env now token = .ret (jwtDecode secret now token) := by
  simp [validate_token, hs]

theorem generate_token_of_secret {env : Env} {secret : String}
    (hs : envVar env "JWT_SECRET" = some secret) (now : Int) (uid : Uuid) (un : String) :
    generate_token env now uid un =
      .ret (jwtEncode secret ⟨uid.render, un,
        usizeCast (now + expirationHours env * 3600), usizeCast now⟩) := by
  simp [generate_token, hs]

theorem jwtDecode_expired_iff (secret : String) (now : Int) (token : String) :
    jwtDecode secret now token = .error .ExpiredToken ↔
      ∃ c, embeddedClaims secret token = some c ∧ (c.exp : Int) ≤ now := by
  unfold jwtDecode embeddedClaims
  rcases hsp : splitOnCh '.' token.data with _ | ⟨p, _ | ⟨s, _ | ⟨x, xs⟩⟩⟩
  · simp
  · simp
  · by_cases hsig : s = jwtSig secret p
    · simp only [hsig, if_pos rfl]
      rcases hdp : decodePayload p with _ | c
      · simp
      · by_cases hle : (c.exp : Int) ≤ now
        · simp [hle]
        · simp [hle]
    · simp [hsig]
  · simp

theorem jwtDecode_malformed_of_none (secret : String) (now : Int) (token : String)
    (h : embeddedClaims secret token = none) :
    jwtDecode secret now token = .error .MalformedToken := by
  unfold jwtDecode
  unfold embeddedClaims at h
  rcases hsp : splitOnCh '.' token.data with _ | ⟨p, _ | ⟨s, _ | ⟨x, xs⟩⟩⟩ <;>
    rw [hsp] at h
  by_cases hsig : s = jwtSig secret p
  · subst hsig
    simp at h
    simp [h]
  · simp [hsig]

/-- C1 counterexample: in an environment without JWT_SECRET (here one
holding only the database url that startup does check), a call to the token
validation operation aborts at request time because the secret is missing,
and the startup reads of main do not include JWT_SECRET — against the claim
that the secret is resolved once at startup and that no issue or validate
call fails or aborts at request time for a missing secret. -/
theorem c1_counterexample :
    validate_token [("DATABASE_URL", "postgres://db")] 0 "sometoken"
        = .panic jwtSecretPanicMsg ∧
      "JWT_SECRET" ∉ mainStartupEnvReads :=
  ⟨rfl, by decide⟩

/-- C1 (amended): the signing secret is not resolved at startup; it is read
from the ambient environment inside every call to generate_token and
validate_token, each such call aborts (panics) at request time when the
secret is absent, and the environment keys main reads at startup do not
include JWT_SECRET. -/
theorem c1_amended_theorem (env : Env) (h : envVar env "JWT_SECRET" = none) :
    (∀ now token, validate_token env now token = .panic jwtSecretPanicMsg) ∧
    (∀ now uid un, generate_token env now uid un = .panic jwtSecretPanicMsg) ∧
    "JWT_SECRET" ∉ mainStartupEnvReads := by
  refine ⟨?_, ?_, by decide⟩
  · intro now token
    simp [validate_token, h]
  · intro now uid un
    simp [generate_token, h]

theorem c1_witness :
    validate_token [("HOST", "localhost")] 5 "t" = .panic jwtSecretPanicMsg :=
  (c1_amended_theorem [("HOST", "localhost")] rfl).1 5 "t"

/-- C2: under the authentication middleware with the secret present in the
environment, a request with no extractable token is answered with the 401
response and the wrapped service is never invoked (the outcome is a constant
independent of the service); a request whose token fails validation is
likewise answered 401; and a request whose token validates is answered with
exactly the service's response computed on the request carrying the token's
claims in its extensions. -/
theorem c2_theorem (env : Env) (secret : String)
    (hs : envVar env "JWT_SECRET" = some secret) (now : Int)
    (service : SRequest → HttpResp) (req : SRequest) :
    (extractToken req = none →
      authMiddlewareCall env now service req = .ret (.error render_401_error) ∧
        render_401_error.status = 401) ∧
    (∀ t e, extractToken req = some t → jwtDecode secret now t = .error e →
      authMiddlewareCall env now service req = .ret (.error render_401_error)) ∧
    (∀ t c, extractToken req = some t → jwtDecode secret now t = .ok c →
      authMiddlewareCall env now service req =
        .ret (.ok (service { req with claimsExt := some c }))) := by
  refine ⟨?_, ?_, ?_⟩
  · intro h
    exact ⟨by simp [authMiddlewareCall, h], rfl⟩
  · intro t e h hv
    simp [authMiddlewareCall, h, validate_token_of_secret hs, hv]
  · intro t c h hv
    simp [authMiddlewareCall, h, validate_token_of_secret hs, hv]

theorem c2_witness :
    authMiddlewareCall [("JWT_SECRET", "k")] 0 (fun _ => ⟨200, "handler"⟩)
        ⟨none, [], none⟩ = .ret (.error render_401_error) ∧
      render_401_error.status = 401 :=
  (c2_theorem [("JWT_SECRET", "k")] "k" rfl 0 (fun _ => ⟨200, "handler"⟩)
    ⟨none, [], none⟩).1 rfl

/-- C3: with the secret present, validation answers ExpiredToken exactly on
the token strings that structurally embed claims (with a verifying
signature) whose expiry is at or before the current time; it answers
MalformedToken on every token string embedding no such claims; and a token
issued under JWT_EXPIRATION_HOURS of minus one (expiry an hour in the past)
fails validation with ExpiredToken. -/
theorem c3_theorem (env : Env) (secret : String)
    (hs : envVar env "JWT_SECRET" = some secret) (now : Int) :
    (∀ token, validate_token env now token = .ret (.error .ExpiredToken) ↔
      ∃ c, embeddedClaims secret token = some c ∧ (c.exp : Int) ≤ now) ∧
    (∀ token, embeddedClaims secret token = none →
      validate_token env now token = .ret (.error .MalformedToken)) ∧
    (envVar env "JWT_EXPIRATION_HOURS" = some "-1" → 3600 ≤ now → now < 2 ^ 63 →
      ∀ uid un, ∃ token, generate_token env now uid un = .ret token ∧
        validate_token env now token = .ret (.error .ExpiredToken)) := by
  refine ⟨?_, ?_, ?_⟩
  · intro token
    rw [validate_token_of_secret hs]
    constructor
    · intro h
      exact (jwtDecode_expired_iff secret now token).mp (PResult.ret.inj h)
    · intro h
      rw [(jwtDecode_expired_iff secret now token).mpr h]
  · intro token h
    rw [validate_token_of_secret hs, jwtDecode_malformed_of_none secret now token h]
  · intro hexp h1 h2 uid un
    have hh : expirationHours env = -1 := by
      rw [expirationHours, hexp]
      rfl
    rw [generate_token_of_secret hs]
    refine ⟨_, rfl, ?_⟩
    rw [validate_token_of_secret hs, jwtDecode_jwtEncode]
    have hc : (usizeCast (now + expirationHours env * 3600) : Int) ≤ now := by
      rw [hh]
      unfold usizeCast
      omega
    rw [if_pos hc]

theorem c3_witness :
    validate_token [("JWT_SECRET", "k"), ("JWT_EXPIRATION_HOURS", "-1")] 4000
        "no.token" = .ret (.error .MalformedToken) ∧
      ∃ token,
        generate_token [("JWT_SECRET", "k"), ("JWT_EXPIRATION_HOURS", "-1")] 4000
            ⟨"a"⟩ "u" = .ret token ∧
          validate_token [("JWT_SECRET", "k"), ("JWT_EXPIRATION_HOURS", "-1")] 4000
            token = .ret (.error .ExpiredToken) :=
  ⟨(c3_theorem [("JWT_SECRET", "k"), ("JWT_EXPIRATION_HOURS", "-1")] "k" rfl 4000).2.1
      "no.token" rfl,
    (c3_theorem [("JWT_SECRET", "k"), ("JWT_EXPIRATION_HOURS", "-1")] "k" rfl 4000).2.2
      rfl (by decide) (by decide) ⟨"a"⟩ "u"⟩

/-- C4: with the secret present and a positive configured ttl, validating a
token just produced by generate_token succeeds and returns claims whose
subject is the rendered user id verbatim, whose username is the given one
verbatim, and whose issued-at is strictly below the expiry. -/
theorem c4_theorem (env : Env) (secret : String)
    (hs : envVar env "JWT_SECRET" = some secret) (now : Int) (uid : Uuid) (un : String)
    (hpos : 0 < expirationHours env) (h0 : 0 ≤ now)
    (hbound : now + expirationHours env * 3600 < 2 ^ 63) :
    ∃ token claims,
      generate_token env now uid un = .ret token ∧
      validate_token env now token = .ret (.ok claims) ∧
      claims.sub = uid.render ∧ claims.username = un ∧ claims.iat < claims.exp := by
  rw [generate_token_of_secret hs]
  refine ⟨_, ⟨uid.render, un, usizeCast (now + expirationHours env * 3600),
    usizeCast now⟩, rfl, ?_, rfl, rfl, ?_⟩
  · rw [validate_token_of_secret hs, jwtDecode_jwtEncode]
    have hc : ¬ (usizeCast (now + expirationHours env * 3600) : Int) ≤ now := by
      unfold usizeCast
      omega
    rw [if_neg hc]
  · show usizeCast now < usizeCast (now + expirationHours env * 3600)
    unfold usizeCast
    omega

theorem c4_witness :
    ∃ token claims,
      generate_token [("JWT_SECRET", "k")] 1000 ⟨"a"⟩ "alice" = .ret token ∧
      validate_token [("JWT_SECRET", "k")] 1000 token = .ret (.ok claims) ∧
      claims.sub = Uuid.render ⟨"a"⟩ ∧ claims.username = "alice" ∧
      claims.iat < claims.exp :=
  c4_theorem [("JWT_SECRET", "k")] "k" rfl 1000 ⟨"a"⟩ "alice" (by decide) (by decide)
    (by decide)

/-- C5: with the secret present, optional-identity extraction never fails:
it returns Ok of some nullable identity on every request, preferring the
identity derived from claims attached earlier in the pipeline, otherwise
validating the auth_token cookie, and every failure of the cookie path
(missing cookie, invalid or expired token, unparseable subject) yields no
identity rather than an error. -/
theorem c5_theorem (env : Env) (secret : String)
    (hs : envVar env "JWT_SECRET" = some secret) (now : Int) (req : SRequest) :
    ∃ u : Option AuthenticatedUser,
      optionalAuthFromRequest env now req = .ret u ∧
      (∀ v, extIdentity req = some v → u = some v) ∧
      (extIdentity req = none → reqCookie req "auth_token" = none → u = none) ∧
      (∀ t e, extIdentity req = none → reqCookie req "auth_token" = some t →
        jwtDecode secret now t = .error e → u = none) ∧
      (∀ t c, extIdentity req = none → reqCookie req "auth_token" = some t →
        jwtDecode secret now t = .ok c → uuidParse c.sub = none → u = none) ∧
      (∀ t c uid, extIdentity req = none → reqCookie req "auth_token" = some t →
        jwtDecode secret now t = .ok c → uuidParse c.sub = some uid →
        u = some ⟨uid, c.username⟩) := by
  rcases he : extIdentity req with _ | v
  · rcases hc : reqCookie req "auth_token" with _ | t
    · refine ⟨none, ?_, ?_, ?_, ?_, ?_, ?_⟩
      · simp [optionalAuthFromRequest, he, hc]
      · intro w hw
        simp at hw
      · intro _ _
        rfl
      · intro t e _ hck _
        rfl
      · intro t c _ hck _ _
        rfl
      · intro t c uid _ hck _ _
        simp at hck
    · rcases hv : jwtDecode secret now t with e | c
      · refine ⟨none, ?_, ?_, ?_, ?_, ?_, ?_⟩
        · simp [optionalAuthFromRequest, he, hc, validate_token_of_secret hs, hv]
        · intro w hw
          simp at hw
        · intro _ hck
          simp at hck
        · intro t1 e1 _ hck hv1
          rfl
        · intro t1 c1 _ hck hv1 _
          rfl
        · intro t1 c1 uid _ hck hv1 hp1
          injection hck with hte
          subst hte
          rw [hv] at hv1
          simp at hv1
      · rcases hp : uuidParse c.sub with _ | uid
        · refine ⟨none, ?_, ?_, ?_, ?_, ?_, ?_⟩
          · simp [optionalAuthFromRequest, he, hc, validate_token_of_secret hs, hv, hp]
          · intro w hw
            simp at hw
          · intro _ hck
            simp at hck
          · intro t1 e1 _ hck hv1
            rfl
          · intro t1 c1 _ hck hv1 _
            rfl
          · intro t1 c1 uid1 _ hck hv1 hp1
            injection hck with hte
            subst hte
            rw [hv] at hv1
            injection hv1 with hce
            subst hce
            rw [hp] at hp1
            simp at hp1
        · refine ⟨some ⟨uid, c.username⟩, ?_, ?_, ?_, ?_, ?_, ?_⟩
          · simp [optionalAuthFromRequest, he, hc, validate_token_of_secret hs, hv, hp]
          · intro w hw
            simp at hw
          · intro _ hck
            simp at hck
          · intro t1 e1 _ hck hv1
            injection hck with hte
            subst hte
            rw [hv] at hv1
            simp at hv1
          · intro t1 c1 _ hck hv1 hp1
            injection hck with hte
            subst hte
            rw [hv] at hv1
            injection hv1 with hce
            subst hce
            rw [hp] at hp1
            simp at hp1
          · intro t1 c1 uid1 _ hck hv1 hp1
            injection hck with hte
            subst hte
            rw [hv] at hv1
            injection hv1 with hce
            subst hce
            rw [hp] at hp1
            injection hp1 with hue
            subst hue
            rfl
  · refine ⟨some v, ?_, ?_, ?_, ?_, ?_, ?_⟩
    · simp [optionalAuthFromRequest, he]
    · intro w hw
      exact hw
    · intro hn _
      simp at hn
    · intro t e hn _ _
      simp at hn
    · intro t c hn _ _ _
      simp at hn
    · intro t c uid hn _ _ _
      simp at hn

theorem c5_witness :
    optionalAuthFromRequest [("JWT_SECRET", "k")] 0 ⟨none, [], none⟩ = .ret none := by
  obtain ⟨u, hret, _, hn, _, _, _⟩ :=
    c5_theorem [("JWT_SECRET", "k")] "k" rfl 0 ⟨none, [], none⟩
  rw [hn rfl rfl] at hret
  exact hret

/-- C6: the middleware takes the token from the Authorization header exactly
when that header's value begins with the literal, case-sensitive seven
character prefix of Bearer and a space, stripping that prefix; otherwise
(header absent or without the prefix) it falls back to the auth_token
cookie. -/
theorem c6_theorem (req : SRequest) :
    (∀ h, req.authorization = some h → "Bearer ".data.isPrefixOf h.data = true →
      extractToken req = some (String.mk (h.data.drop 7))) ∧
    (∀ h, req.authorization = some h → "Bearer ".data.isPrefixOf h.data = false →
      extractToken req = reqCookie req "auth_token") ∧
    (req.authorization = none → extractToken req = reqCookie req "auth_token") := by
  refine ⟨?_, ?_, ?_⟩
  · intro h ha hp
    simp [extractToken, ha, hp]
  · intro h ha hp
    simp [extractToken, ha, hp]
  · intro ha
    simp [extractToken, ha]

theorem c6_witness :
    extractToken ⟨some "Bearer abc", [("auth_token", "ck")], none⟩ = some "abc" ∧
    extractToken ⟨some "bearer abc", [("auth_token", "ck")], none⟩ = some "ck" ∧
    extractToken ⟨none, [("auth_token", "ck")], none⟩ = some "ck" := by
  refine ⟨?_, ?_, ?_⟩
  · exact (c6_theorem ⟨some "Bearer abc", [("auth_token", "ck")], none⟩).1
      "Bearer abc" rfl (by decide)
  · exact ((c6_theorem ⟨some "bearer abc", [("auth_token", "ck")], none⟩).2.1
      "bearer abc" rfl (by decide)).trans rfl
  · exact ((c6_theorem ⟨none, [("auth_token", "ck")], none⟩).2.2 rfl).trans rfl

/-- C7: the caller-side image validation accepts a filename exactly when its
extension, lowercased, is jpg, jpeg, png or webp; inside create_product that
check decides whether the storage adapter is ever invoked, so photo.PNG
reaches the adapter and payload.exe is rejected before any storage call. -/
theorem c7_theorem :
    (∀ filename, is_valid_image_extension filename = true ↔
      ∃ ext, extOf filename = some ext ∧
        (asciiLower ext = "jpg" ∨ asciiLower ext = "jpeg" ∨
          asciiLower ext = "png" ∨ asciiLower ext = "webp")) ∧
    (∀ filename, createProductImageStep (some (some filename)) =
        .adapterInvoked filename ↔ is_valid_image_extension filename = true) ∧
    createProductImageStep (some (some "photo.PNG")) = .adapterInvoked "photo.PNG" ∧
    createProductImageStep (some (some "payload.exe")) = .rejectedInvalidType := by
  refine ⟨?_, ?_, by rfl, by rfl⟩
  · intro filename
    unfold is_valid_image_extension
    rcases hext : extOf filename with _ | ext
    · simp
    · simp [List.contains_eq_any_beq]
  · intro filename
    unfold createProductImageStep
    cases hval : is_valid_image_extension filename
    · simp [hval]
    · simp [hval]

/-- C10: required-identity extraction fails with the dedicated 401 error for
a subject that does not parse as a UUID even when claims are attached, fails
with the authentication-required 401 when no claims are attached, and
succeeds exactly on attached claims with a parseable subject, exposing that
subject as the user id and the claims' username verbatim. -/
theorem c10_theorem (req : SRequest) :
    (req.claimsExt = none →
      authenticatedUserFromRequest req =
        .error (.unauthorized "Authentication required")) ∧
    (∀ c, req.claimsExt = some c → uuidParse c.sub = none →
      authenticatedUserFromRequest req =
        .error (.unauthorized "Invalid user ID in token")) ∧
    (∀ c uid, req.claimsExt = some c → uuidParse c.sub = some uid →
      authenticatedUserFromRequest req = .ok ⟨uid, c.username⟩) ∧
    (∀ u, authenticatedUserFromRequest req = .ok u →
      ∃ c, req.claimsExt = some c ∧ uuidParse c.sub = some u.user_id ∧
        u.username = c.username) := by
  refine ⟨?_, ?_, ?_, ?_⟩
  · intro h
    simp [authenticatedUserFromRequest, h]
  · intro c hc hp
    simp [authenticatedUserFromRequest, hc, hp]
  · intro c uid hc hp
    simp [authenticatedUserFromRequest, hc, hp]
  · intro u hu
    rcases hc : req.claimsExt with _ | c
    · have h1 : authenticatedUserFromRequest req =
          .error (.unauthorized "Authentication required") := by
        simp [authenticatedUserFromRequest, hc]
      rw [h1] at hu
      simp at hu
    · rcases hp : uuidParse c.sub with _ | uid
      · have h1 : authenticatedUserFromRequest req =
            .error (.unauthorized "Invalid user ID in token") := by
          simp [authenticatedUserFromRequest, hc, hp]
        rw [h1] at hu
        simp at hu
      · have h1 : authenticatedUserFromRequest req = .ok ⟨uid, c.username⟩ := by
          simp [authenticatedUserFromRequest, hc, hp]
        rw [h1] at hu
        have h2 := Except.ok.inj hu
        refine ⟨c, rfl, ?_, ?_⟩
        · rw [← h2]
          exact hp
        · rw [← h2]

/-- C8: a login with an unknown username and a login with a known username
but failing password verification produce identical responses: HTTP 401
carrying the same rendered page with the same generic message, so the
response does not reveal whether the username exists. -/
theorem c8_theorem (env : Env) (now1 now2 : Int) (form1 form2 : LoginForm) (user : User)
    (hv : verify_password form2.password user.password_hash = .ok false) :
    login env now1 (.ok none) form1 = login env now2 (.ok (some user)) form2 ∧
    login env now1 (.ok none) form1 =
      .ret (.unauthorized (renderLoginPage "Invalid username or password")) ∧
    (∀ out, login env now2 (.ok (some user)) form2 = .ret out →
      loginStatus out = 401) := by
  have h2 : login env now2 (.ok (some user)) form2 =
      .ret (.unauthorized (renderLoginPage "Invalid username or password")) := by
    simp [login, hv]
  refine ⟨?_, rfl, ?_⟩
  · rw [h2]
    rfl
  · intro out hout
    rw [h2] at hout
    have h3 := PResult.ret.inj hout
    rw [← h3]
    rfl

theorem c8_witness :
    login [] 0 (.ok none) ⟨"ghost", "pw"⟩ =
        login [] 0 (.ok (some ⟨⟨"id1"⟩, "alice", ⟨0, "correct"⟩, true⟩))
          ⟨"alice", "wrong"⟩ ∧
      login [] 0 (.ok none) ⟨"ghost", "pw"⟩ =
        .ret (.unauthorized (renderLoginPage "Invalid username or password")) :=
  ⟨(c8_theorem [] 0 0 ⟨"ghost", "pw"⟩ ⟨"alice", "wrong"⟩
      ⟨⟨"id1"⟩, "alice", ⟨0, "correct"⟩, true⟩ rfl).1,
    (c8_theorem [] 0 0 ⟨"ghost", "pw"⟩ ⟨"alice", "wrong"⟩
      ⟨⟨"id1"⟩, "alice", ⟨0, "correct"⟩, true⟩ rfl).2.1⟩

/-- C9: verifying a password against its own hash answers true, and
verifying any different password against that hash answers false. -/
theorem c9_theorem (salt : Nat) (p p1 p2 : String) (hne : p1 ≠ p2) :
    (∀ h, hash_password salt p = .ok h → verify_password p h = .ok true) ∧
    (∀ h, hash_password salt p1 = .ok h → verify_password p2 h = .ok false) := by
  constructor
  · intro h hh
    have he : h = ⟨salt, p⟩ := (Except.ok.inj hh).symm
    subst he
    simp [verify_password]
  · intro h hh
    have he : h = ⟨salt, p1⟩ := (Except.ok.inj hh).symm
    subst he
    simp only [verify_password, Except.ok.injEq]
    exact beq_eq_false_iff_ne.mpr hne

theorem c9_witness :
    verify_password "a" ⟨0, "a"⟩ = .ok true ∧
      verify_password "b" ⟨0, "a"⟩ = .ok false :=
  ⟨(c9_theorem 0 "a" "a" "b" (by decide)).1 ⟨0, "a"⟩ rfl,
    (c9_theorem 0 "a" "a" "b" (by decide)).2 ⟨0, "a"⟩ rfl⟩
